import Mathlib

/-!
Verification development for the PromptLayer OpenAI-compatible proxy.

The repository bridges an OpenAI-style `/v1/chat/completions` endpoint to the
PromptLayer control plane (session creation and job submission over HTTP) and
its Ably realtime bus (cumulative `UPDATE_LAST_MESSAGE` frames followed by a
terminal `INDIVIDUAL_RUN_COMPLETE` frame).  This file shallowly embeds:

* the parameter normalizer `processParameters`;
* the error-envelope builder `handleError`;
* the control-plane retry loops of `getChatID` / `sentRequest`;
* the delta-stream translator inside the WebSocket message handlers
  (the segment loop shared verbatim by all route variants, plus the
  pool-based handler of the third route variant and the direct-connection
  handler of the second route file);
* the per-identity WebSocket connection pool (`websocket-pool.js`);
* the static model table `model-map.js`.

Text is modelled as `List Char`; the JavaScript `String.prototype.replace`
with an empty replacement becomes `removeFirst` below.
-/

/-- Text values (JavaScript strings) are modelled as lists of characters. -/
abbrev Str := List Char

/-- JavaScript `s.replace(pat, "")`: remove the first (leftmost) occurrence of
`pat` from `s`; if `pat` does not occur, `s` is returned unchanged.  An empty
`pat` matches at position 0, so `s.replace("", "")` is `s` itself. -/
def removeFirst (pat : Str) : Str → Str
  | [] => []
  | c :: rest =>
    if pat.isPrefixOf (c :: rest) then (c :: rest).drop pat.length
    else c :: removeFirst pat rest

/-- The opening reasoning marker together with its separator, from the handler
line `output = "<think>\n\n" + output`. -/
def thinkOpen : Str := "<think>\n\n".data

/-- The closing reasoning marker together with its separator, from the handler
line `output = output + "\n\n</think>"`. -/
def thinkClose : Str := "\n\n</think>".data

/-- One content segment of an `UPDATE_LAST_MESSAGE` frame: either answer text
(`item.type === "text"`) or reasoning text (`item.type === "thinking"`), each
carrying the cumulative text-so-far for its channel. -/
inductive Seg where
  | text (s : Str)
  | thinking (s : Str)
deriving DecidableEq, Repr

/-- Mutable per-request translator state of the message handlers:
`ThinkingLastContent`, `TextLastContent`, `ThinkingStart`, `ThinkingEnd`. -/
structure TransState where
  thinkingLast : Str
  textLast : Str
  thinkingStart : Bool
  thinkingEnd : Bool
deriving DecidableEq, Repr

/-- The translator state at request start (all accumulators empty). -/
def initTrans : TransState := ⟨[], [], false, false⟩

/-- One iteration of the segment loop of the message handler (shared verbatim
by every route variant): `arrLen` is `MessageArray.length`, `out` is the
current value of the `output` variable (reassigned, not appended, by each
matching iteration and left untouched by non-matching ones). -/
def processSeg (arrLen : Nat) (st : TransState) (out : Str) : Seg → TransState × Str
  | .text s =>
    let d := removeFirst st.textLast s
    let (d, st) :=
      if st.thinkingStart && !st.thinkingEnd then
        (d ++ thinkClose, { st with thinkingEnd := true })
      else (d, st)
    ({ st with textLast := s }, d)
  | .thinking s =>
    if arrLen = 1 then
      let d := removeFirst st.thinkingLast s
      let (d, st) :=
        if !st.thinkingStart then
          (thinkOpen ++ d, { st with thinkingStart := true })
        else (d, st)
      ({ st with thinkingLast := s }, d)
    else (st, out)

/-- The whole segment loop over one frame's `MessageArray`, threading the
state and the `output` variable. -/
def processSegs (arrLen : Nat) (st : TransState) (out : Str) :
    List Seg → TransState × Str
  | [] => (st, out)
  | seg :: rest =>
    let (st', out') := processSeg arrLen st out seg
    processSegs arrLen st' out' rest

/-- Processing of one `UPDATE_LAST_MESSAGE` frame body: run the segment loop
with `output = ""` and `arrLen = MessageArray.length`. -/
def processUpdate (st : TransState) (segs : List Seg) : TransState × Str :=
  processSegs segs.length st [] segs

/-- Run a sequence of `UPDATE_LAST_MESSAGE` frames, collecting the value of
`output` computed by the handler for each frame. -/
def runUpdates (st : TransState) : List (List Seg) → TransState × List Str
  | [] => (st, [])
  | segs :: rest =>
    let (st', out) := processUpdate st segs
    let (st'', outs) := runUpdates st' rest
    (st'', out :: outs)

/-- Boolean prefix-chain check: `acc` is a prefix of the first element and
each element is a prefix of its successor. -/
def chainFrom (acc : Str) : List Str → Bool
  | [] => true
  | t :: ts => acc.isPrefixOf t && chainFrom t ts

theorem removeFirst_of_isPrefixOf {pat s : Str} (h : pat.isPrefixOf s = true) :
    removeFirst pat s = s.drop pat.length := by
  cases s with
  | nil =>
    have : pat = [] := by
      cases pat with
      | nil => rfl
      | cons c cs => simp [List.isPrefixOf] at h
    subst this
    rfl
  | cons c rest => simp [removeFirst, h]

theorem append_removeFirst {pat s : Str} (h : pat <+: s) :
    pat ++ removeFirst pat s = s := by
  obtain ⟨t, rfl⟩ := h
  rw [removeFirst_of_isPrefixOf]
  · simp
  · exact List.isPrefixOf_iff_prefix.2 ⟨t, rfl⟩

example : removeFirst "He".data "Hello".data = "llo".data := by decide
example : removeFirst [] "Hi".data = "Hi".data := by decide
example : removeFirst "ab".data "xab".data = "x".data := by decide

theorem removeFirst_nil_pat (s : Str) : removeFirst [] s = s := by
  cases s with
  | nil => rfl
  | cons c rest => simp [removeFirst, List.isPrefixOf]

theorem processUpdate_text (st : TransState) (t : Str) (h : st.thinkingStart = false) :
    processUpdate st [Seg.text t]
      = ({ st with textLast := t }, removeFirst st.textLast t) := by
  simp [processUpdate, processSegs, processSeg, h]

theorem processUpdate_thinking_first (st : TransState) (t : Str)
    (h : st.thinkingStart = false) :
    processUpdate st [Seg.thinking t]
      = ({ st with thinkingLast := t, thinkingStart := true },
         thinkOpen ++ removeFirst st.thinkingLast t) := by
  simp [processUpdate, processSegs, processSeg, h]

theorem processUpdate_thinking_next (st : TransState) (t : Str)
    (h : st.thinkingStart = true) :
    processUpdate st [Seg.thinking t]
      = ({ st with thinkingLast := t }, removeFirst st.thinkingLast t) := by
  simp [processUpdate, processSegs, processSeg, h]

theorem runUpdates_text_chain (ts : List Str) : ∀ st : TransState,
    st.thinkingStart = false → chainFrom st.textLast ts = true →
    st.textLast ++ ((runUpdates st (ts.map fun t => [Seg.text t])).2).join
        = ts.getLastD st.textLast
    ∧ (runUpdates st (ts.map fun t => [Seg.text t])).1.textLast = ts.getLastD st.textLast
    ∧ (runUpdates st (ts.map fun t => [Seg.text t])).1.thinkingStart = false := by
  induction ts with
  | nil => intro st h _; simp [runUpdates, h]
  | cons t rest ih =>
    intro st h hc
    simp only [chainFrom, Bool.and_eq_true] at hc
    obtain ⟨h1, h2⟩ := hc
    have hpre : st.textLast <+: t := List.isPrefixOf_iff_prefix.1 h1
    have ih' := ih { st with textLast := t } (by simpa using h) (by simpa using h2)
    simp only [List.map_cons, runUpdates, processUpdate_text st t h]
    simp only [List.getLastD_cons]
    refine ⟨?_, ih'.2.1, ih'.2.2⟩
    have hjoin := ih'.1
    simp only [List.join_cons, ← List.append_assoc, append_removeFirst hpre]
    simpa using hjoin

theorem runUpdates_thinking_chain (ts : List Str) : ∀ st : TransState,
    st.thinkingStart = true → chainFrom st.thinkingLast ts = true →
    st.thinkingLast ++ ((runUpdates st (ts.map fun t => [Seg.thinking t])).2).join
        = ts.getLastD st.thinkingLast
    ∧ (runUpdates st (ts.map fun t => [Seg.thinking t])).1.thinkingLast
        = ts.getLastD st.thinkingLast := by
  induction ts with
  | nil => intro st h _; simp [runUpdates, h]
  | cons t rest ih =>
    intro st h hc
    simp only [chainFrom, Bool.and_eq_true] at hc
    obtain ⟨h1, h2⟩ := hc
    have hpre : st.thinkingLast <+: t := List.isPrefixOf_iff_prefix.1 h1
    have ih' := ih { st with thinkingLast := t } (by simpa using h) (by simpa using h2)
    simp only [List.map_cons, runUpdates, processUpdate_thinking_next st t h]
    simp only [List.getLastD_cons]
    refine ⟨?_, ih'.2⟩
    simp only [List.join_cons, ← List.append_assoc, append_removeFirst hpre]
    simpa using ih'.1

theorem getLastD_eq_getLast {α : Type} :
    ∀ (l : List α) (h : l ≠ []) (d : α), l.getLastD d = l.getLast h
  | [a], _, _ => rfl
  | a :: b :: l, _, d => by
    rw [List.getLastD_cons, getLastD_eq_getLast (b :: l) (List.cons_ne_nil b l) a,
      List.getLast_cons (List.cons_ne_nil b l)]

theorem chainFrom_take : ∀ (ts : List Str) (acc : Str) (k : Nat),
    chainFrom acc ts = true → chainFrom acc (ts.take k) = true
  | _, _, 0, _ => rfl
  | [], _, _ + 1, _ => rfl
  | t :: rest, acc, k + 1, h => by
    simp only [chainFrom, Bool.and_eq_true] at h
    simp only [List.take_succ_cons, chainFrom, Bool.and_eq_true]
    exact ⟨h.1, chainFrom_take rest t k h.2⟩

theorem take_getLastD {α : Type} :
    ∀ (ts : List α) (i : Nat) (hi : i < ts.length) (d : α),
      (ts.take (i + 1)).getLastD d = ts.get ⟨i, hi⟩
  | t :: rest, 0, _, d => by simp
  | t :: rest, i + 1, hi, d => by
    simp only [List.take_succ_cons, List.getLastD_cons]
    rw [take_getLastD rest i (by simpa using hi) t]
    rfl

/-- C1: for successive `UPDATE_LAST_MESSAGE` frames delivering cumulative texts
`[t1, ..., tn]` (each a prefix of the next) on one channel, the concatenation
of the deltas computed by the message handler equals `tn` — on the answer
channel the emitted deltas carry no markers at all, and on the reasoning
channel the single opening marker is the only extra text, so the deltas with
markers excluded concatenate to `tn` — and the stored accumulated value
(`TextLastContent` / `ThinkingLastContent`) after frame `i` equals `ti`. -/
theorem c1_delta_round_trip (ts : List Str) (hne : ts ≠ [])
    (hchain : chainFrom [] ts = true) :
    ((runUpdates initTrans (ts.map fun t => [Seg.text t])).2.join = ts.getLast hne
      ∧ (runUpdates initTrans (ts.map fun t => [Seg.text t])).1.textLast = ts.getLast hne
      ∧ ∀ i (hi : i < ts.length),
          (runUpdates initTrans ((ts.take (i + 1)).map fun t => [Seg.text t])).1.textLast
            = ts.get ⟨i, hi⟩)
    ∧ ((runUpdates initTrans (ts.map fun t => [Seg.thinking t])).2.join
          = thinkOpen ++ ts.getLast hne
      ∧ (runUpdates initTrans (ts.map fun t => [Seg.thinking t])).1.thinkingLast
          = ts.getLast hne
      ∧ ∀ i (hi : i < ts.length),
          (runUpdates initTrans
              ((ts.take (i + 1)).map fun t => [Seg.thinking t])).1.thinkingLast
            = ts.get ⟨i, hi⟩) := by
  have htext : ∀ (l : List Str), chainFrom [] l = true →
      (runUpdates initTrans (l.map fun t => [Seg.text t])).2.join = l.getLastD []
      ∧ (runUpdates initTrans (l.map fun t => [Seg.text t])).1.textLast = l.getLastD [] := by
    intro l hl
    have h := runUpdates_text_chain l initTrans rfl (by simpa [initTrans] using hl)
    refine ⟨?_, by simpa [initTrans] using h.2.1⟩
    have := h.1
    simpa [initTrans] using this
  have hthink : ∀ (l : List Str), l ≠ [] → chainFrom [] l = true →
      (runUpdates initTrans (l.map fun t => [Seg.thinking t])).2.join
          = thinkOpen ++ l.getLastD []
      ∧ (runUpdates initTrans (l.map fun t => [Seg.thinking t])).1.thinkingLast
          = l.getLastD [] := by
    intro l hlne hl
    cases l with
    | nil => exact absurd rfl hlne
    | cons t1 rest =>
      simp only [chainFrom, Bool.and_eq_true] at hl
      obtain ⟨_, h2⟩ := hl
      have hrest := runUpdates_thinking_chain rest
        (⟨t1, [], true, false⟩ : TransState) rfl (by simpa using h2)
      simp only at hrest
      have hstep := processUpdate_thinking_first (⟨[], [], false, false⟩ : TransState) t1 rfl
      simp only [removeFirst_nil_pat] at hstep
      simp only [List.map_cons, runUpdates, initTrans, hstep, List.getLastD_cons]
      constructor
      · simp only [List.join_cons, List.append_assoc]
        rw [hrest.1]
      · exact hrest.2
  refine ⟨⟨?_, ?_, ?_⟩, ?_, ?_, ?_⟩
  · rw [← getLastD_eq_getLast ts hne []]; exact (htext ts hchain).1
  · rw [← getLastD_eq_getLast ts hne []]; exact (htext ts hchain).2
  · intro i hi
    have := (htext (ts.take (i + 1)) (chainFrom_take ts [] (i + 1) hchain)).2
    rwa [take_getLastD ts i hi []] at this
  · rw [← getLastD_eq_getLast ts hne []]; exact (hthink ts hne hchain).1
  · rw [← getLastD_eq_getLast ts hne []]; exact (hthink ts hne hchain).2
  · intro i hi
    have hne' : ts.take (i + 1) ≠ [] := by
      cases ts with
      | nil => simp at hi
      | cons a l => simp [List.take_succ_cons]
    have := (hthink (ts.take (i + 1)) hne' (chainFrom_take ts [] (i + 1) hchain)).2
    rwa [take_getLastD ts i hi []] at this

/-- C1 witness: the theorem applied to the concrete chain `["a", "ab"]`. -/
theorem c1_delta_round_trip_witness :
    (["a".data, "ab".data] : List Str) ≠ []
    ∧ chainFrom [] ["a".data, "ab".data] = true
    ∧ (runUpdates initTrans
          ((["a".data, "ab".data] : List Str).map fun t => [Seg.text t])).2.join
        = (["a".data, "ab".data] : List Str).getLast (by decide) := by
  have h := c1_delta_round_trip ["a".data, "ab".data] (by decide) (by decide)
  exact ⟨by decide, by decide, h.1.1⟩

/-- JSON values appearing in error envelopes (strings and `null`). -/
inductive JVal where
  | str (s : String)
  | nullv
deriving DecidableEq, Repr

/-- An error envelope's `error` object, as an ordered list of key/value
pairs exactly as the source writes them. -/
abbrev ErrEnvelope := List (String × JVal)

/-- The non-streaming `chat.completion` response body (the fields the claims
are about: the echoed model name and the assistant content). -/
structure ChatBody where
  model : String
  content : Str
deriving DecidableEq, Repr

/-- One observable output action of a message handler on the Express
response: a content chunk (`res.write` of `streamChunk`), the terminal chunk
(`finish_reason:"stop"`), the `[DONE]` sentinel, `res.end()`, `res.json`,
`res.status(s).json` of an error envelope, or an in-band error event. -/
inductive Emission where
  | chunk (model : String) (content : Str)
  | finalChunk (model : String)
  | done
  | endStream
  | jsonBody (body : ChatBody)
  | statusJson (status : Nat) (env : ErrEnvelope)
  | errorEvent (env : ErrEnvelope)
deriving DecidableEq, Repr

/-- The literal empty-response error envelope from the
`INDIVIDUAL_RUN_COMPLETE` branch (`res.status(502).json({...})`). -/
def emptyRespEnvelope : ErrEnvelope :=
  [("message", .str "上游服务返回空响应或发生错误"),
   ("type", .str "upstream_error"),
   ("param", .nullv),
   ("code", .str "empty_response")]

/-- Non-streaming final output assembly: `ThinkingLastContent ?
"<think>\n\n" + T + "\n\n</think>\n\n" + Text : TextLastContent`. -/
def nonStreamOutput (t : TransState) : Str :=
  if t.thinkingLast.isEmpty then t.textLast
  else thinkOpen ++ t.thinkingLast ++ thinkClose ++ "\n\n".data ++ t.textLast

/-- One inbound WebSocket frame after parsing: an `UPDATE_LAST_MESSAGE`
with its content segments, an `INDIVIDUAL_RUN_COMPLETE`, or a frame the
handler discards (unparsable JSON, missing data, or a correlation id that
does not match this request's `RequestID`). -/
inductive Frame where
  | update (segs : List Seg)
  | complete
  | discard
deriving DecidableEq, Repr

/-- Per-request state of the pool-based route's message handler: translator
state, the `isCompleted` flag, Express's `res.headersSent` (true once any
body byte has been written), the number of `wsPool.releaseConnection(ws)`
calls, and whether the message listener is still attached. -/
structure PoolReqState where
  trans : TransState
  isCompleted : Bool
  headersSent : Bool
  released : Nat
  listenerOn : Bool
deriving DecidableEq, Repr

/-- Pool-route request state at the moment the listener is attached. -/
def initPoolReq : PoolReqState := ⟨initTrans, false, false, 0, true⟩

/-- The pool-based route's `messageHandler` on one frame.  `UPDATE` frames
run the segment loop and write the chunk only under
`req.body.stream === true && !res.headersSent` (a `res.write` sends the
headers, so `headersSent` becomes true at the first write).  `COMPLETE`
frames are ignored once `isCompleted` is set; otherwise: empty accumulators
give the 502 empty-response envelope, non-streaming mode builds the JSON
body (written only when headers are unsent), streaming mode writes the
terminal chunk, `[DONE]` and `res.end()` only when headers are unsent; each
branch removes the listener and releases the pool connection once. -/
def poolStep (stream : Bool) (model : String) (st : PoolReqState) :
    Frame → PoolReqState × List Emission
  | .discard => (st, [])
  | .update segs =>
    let (t, out) := processUpdate st.trans segs
    if stream && !st.headersSent then
      ({ st with trans := t, headersSent := true }, [.chunk model out])
    else
      ({ st with trans := t }, [])
  | .complete =>
    if st.isCompleted then (st, [])
    else
      let st1 := { st with isCompleted := true }
      let st2 := { st1 with listenerOn := false, released := st1.released + 1, headersSent := true }
      if st1.trans.thinkingLast.isEmpty && st1.trans.textLast.isEmpty then
        (st2, [.statusJson 502 emptyRespEnvelope])
      else if !stream then
        let es := if !st1.headersSent then
            [Emission.jsonBody ⟨model, nonStreamOutput st1.trans⟩] else []
        (st2, es)
      else
        let es := if !st1.headersSent then
            [Emission.finalChunk model, Emission.done, Emission.endStream] else []
        (st2, es)

/-- Run the pool-based handler over a frame sequence, concatenating the
emissions in order. -/
def poolRun (stream : Bool) (model : String) :
    PoolReqState → List Frame → PoolReqState × List Emission
  | st, [] => (st, [])
  | st, f :: fs =>
    let (st', es) := poolStep stream model st f
    let (st'', es') := poolRun stream model st' fs
    (st'', es ++ es')

/-- Per-request state of the direct-connection route's message handler
(second route file): translator state, number of `ws.close()` calls, and
whether `res.end()` has run. -/
structure DirectReqState where
  trans : TransState
  wsCloseCount : Nat
  ended : Bool
deriving DecidableEq, Repr

/-- Direct-route request state at the moment the listener is attached. -/
def initDirectReq : DirectReqState := ⟨initTrans, 0, false⟩

/-- The direct-connection route's `ws.on('message')` handler on one frame.
`UPDATE` frames run the segment loop and write the chunk whenever
`req.body.stream === true` (no other guard).  `COMPLETE` frames (this
variant has no `isCompleted` guard): empty accumulators give the 502
empty-response envelope after `ws.close()`; non-streaming mode sends the
JSON body; streaming mode writes the terminal chunk, `[DONE]`, and
`res.end()`; each branch closes the WebSocket. -/
def directStep (stream : Bool) (model : String) (st : DirectReqState) :
    Frame → DirectReqState × List Emission
  | .discard => (st, [])
  | .update segs =>
    let (t, out) := processUpdate st.trans segs
    if stream then ({ st with trans := t }, [.chunk model out])
    else ({ st with trans := t }, [])
  | .complete =>
    if st.trans.thinkingLast.isEmpty && st.trans.textLast.isEmpty then
      ({ st with wsCloseCount := st.wsCloseCount + 1 },
       [.statusJson 502 emptyRespEnvelope])
    else if !stream then
      ({ st with wsCloseCount := st.wsCloseCount + 1 },
       [.jsonBody ⟨model, nonStreamOutput st.trans⟩])
    else
      ({ st with wsCloseCount := st.wsCloseCount + 1, ended := true },
       [.finalChunk model, .done, .endStream])

/-- Run the direct-connection handler over a frame sequence. -/
def directRun (stream : Bool) (model : String) :
    DirectReqState → List Frame → DirectReqState × List Emission
  | st, [] => (st, [])
  | st, f :: fs =>
    let (st', es) := directStep stream model st f
    let (st'', es') := directRun stream model st' fs
    (st'', es ++ es')

/-- The C4 scenario frame sequence: reasoning cumulative "He", reasoning
cumulative "Hello", answer cumulative "Hi", then the terminal event. -/
def c4Frames : List Frame :=
  [.update [Seg.thinking "He".data], .update [Seg.thinking "Hello".data],
   .update [Seg.text "Hi".data], .complete]

/-- C4 counterexample: in the scenario reasoning "He", reasoning "Hello",
answer "Hi" with stream=true, the emitted deltas are NOT (as the claim
states) the closing reasoning marker followed by "Hi": the handler appends
the closing marker after the answer delta, so the third chunk is
"Hi\n\n</think>", not "\n\n</think>Hi". -/
theorem c4_counterexample :
    (directRun true "m1" initDirectReq c4Frames).2
      ≠ [Emission.chunk "m1" (thinkOpen ++ "He".data),
         Emission.chunk "m1" "llo".data,
         Emission.chunk "m1" (thinkClose ++ "Hi".data),
         Emission.finalChunk "m1", Emission.done, Emission.endStream] := by
  decide

/-- C4 amended: in the scenario reasoning "He", reasoning "Hello", answer
"Hi" with stream=true, the emitted deltas are the opening marker followed by
"He", then "llo", then "Hi" followed by the closing reasoning marker as the
answer delta (the closing marker follows the first answer text), then a
terminal stop chunk, the done sentinel, and the end of the stream. -/
theorem c4_scenario_deltas :
    (directRun true "m1" initDirectReq c4Frames).2
      = [Emission.chunk "m1" (thinkOpen ++ "He".data),
         Emission.chunk "m1" "llo".data,
         Emission.chunk "m1" ("Hi".data ++ thinkClose),
         Emission.finalChunk "m1", Emission.done, Emission.endStream] := by
  decide

/-- The C3 failing scenario: a streaming request whose answer text "Hi"
arrives in one update frame, followed by the terminal event twice. -/
def c3Frames : List Frame :=
  [.update [Seg.text "Hi".data], .complete, .complete]

/-- C3 evaluated on the failing input: in streaming mode, the pool-based
handler releases the connection exactly once and ignores the second terminal
event (`isCompleted` guard), but it emits NO terminal chunk and no done
sentinel at all — the first content chunk set `res.headersSent`, and the
terminal writes are guarded by `!res.headersSent` — where the claim (and the
other route variants in the repository) require exactly one terminal
emission. -/
theorem c3_pool_double_complete_eval :
    (poolRun true "m" initPoolReq c3Frames).2 = [Emission.chunk "m" "Hi".data]
    ∧ (poolRun true "m" initPoolReq c3Frames).1.released = 1
    ∧ (poolRun true "m" initPoolReq c3Frames).1.isCompleted = true
    ∧ poolStep true "m" (poolRun true "m" initPoolReq c3Frames).1 .complete
        = ((poolRun true "m" initPoolReq c3Frames).1, []) := by
  decide

/-- C5: when the terminal event is processed with both accumulated texts
empty and no body bytes sent, the pool-based handler responds with the
502 empty-response envelope (code "empty_response", type "upstream_error")
and still releases the pool connection exactly once. -/
theorem c5_empty_terminal (stream : Bool) (model : String) (st : PoolReqState)
    (hc : st.isCompleted = false) (ht : st.trans.thinkingLast = [])
    (hx : st.trans.textLast = []) (hh : st.headersSent = false) :
    (poolStep stream model st .complete).2
        = [Emission.statusJson 502 emptyRespEnvelope]
    ∧ (poolStep stream model st .complete).1.released = st.released + 1
    ∧ emptyRespEnvelope.lookup "code" = some (JVal.str "empty_response")
    ∧ emptyRespEnvelope.lookup "type" = some (JVal.str "upstream_error") := by
  refine ⟨?_, ?_, by decide, by decide⟩ <;>
    simp [poolStep, hc, ht, hx, emptyRespEnvelope]

/-- C5 witness: the theorem applied to the initial request state. -/
theorem c5_empty_terminal_witness :
    initPoolReq.isCompleted = false
    ∧ initPoolReq.trans.thinkingLast = []
    ∧ initPoolReq.trans.textLast = []
    ∧ initPoolReq.headersSent = false
    ∧ ((poolStep true "m" initPoolReq .complete).2
          = [Emission.statusJson 502 emptyRespEnvelope]
      ∧ (poolStep true "m" initPoolReq .complete).1.released = initPoolReq.released + 1
      ∧ emptyRespEnvelope.lookup "code" = some (JVal.str "empty_response")
      ∧ emptyRespEnvelope.lookup "type" = some (JVal.str "upstream_error")) :=
  ⟨rfl, rfl, rfl, rfl, c5_empty_terminal true "m" initPoolReq rfl rfl rfl rfl⟩

/-- Per-identity pool bookkeeping state (`userPool`): the set of registered
connection ids (`connections` map keys), the `activeCount` field (a plain
JavaScript number, hence an integer here), and the wait-queue length. -/
structure PoolSt where
  connections : Finset String
  activeCount : ℤ
  queueLen : Nat
deriving DecidableEq

/-- The pool operations touching a user pool's bookkeeping, as performed by
`getConnection` (reuse hit or enqueue), `createConnection`'s `open` handler
(register), `releaseConnection`, `removeConnection`, the queue timeout
splice, and the periodic `cleanup` sweep. -/
inductive PoolOp where
  | register (id : String)
  | remove (id : String)
  | release (id : String)
  | acquireHit (id : String)
  | enqueue
  | dequeueTimeout
  | sweep (ids : List String)
deriving DecidableEq

/-- `removeConnection(connectionId, userPool)`: delete the entry and
decrement `activeCount` only when the id is present. -/
def removeConn (st : PoolSt) (id : String) : PoolSt :=
  if id ∈ st.connections then
    { st with connections := st.connections.erase id, activeCount := st.activeCount - 1 }
  else st

/-- Effect of one pool operation on the bookkeeping state.  `register` is
`createConnection`'s `open` handler (`connections.set` plus `activeCount++`
together); `release` and `acquireHit` touch only per-connection flags, never
the map or the count; `sweep` is `cleanup`'s per-identity pass, which calls
`removeConnection` for every selected id. -/
def poolOpStep (st : PoolSt) : PoolOp → PoolSt
  | .register id =>
    { st with connections := insert id st.connections, activeCount := st.activeCount + 1 }
  | .remove id => removeConn st id
  | .release _ => st
  | .acquireHit _ => st
  | .enqueue => { st with queueLen := st.queueLen + 1 }
  | .dequeueTimeout => { st with queueLen := st.queueLen - 1 }
  | .sweep ids => ids.foldl removeConn st

/-- Apply a whole sequence of pool operations. -/
def applyPoolOps (st : PoolSt) : List PoolOp → PoolSt
  | [] => st
  | op :: ops => applyPoolOps (poolOpStep st op) ops

/-- Every `register` along the run uses an id not currently registered
(connection ids embed `Date.now()` and a random suffix, so `createConnection`
never reuses a live id). -/
def freshRun (st : PoolSt) : List PoolOp → Bool
  | [] => true
  | op :: ops =>
    (match op with
     | .register id => decide (id ∉ st.connections)
     | _ => true) && freshRun (poolOpStep st op) ops

/-- The claimed invariant: `activeCount == |connections|`. -/
def poolInv (st : PoolSt) : Prop :=
  st.activeCount = st.connections.card

instance (st : PoolSt) : Decidable (poolInv st) := by
  unfold poolInv; infer_instance

theorem removeConn_inv (st : PoolSt) (id : String) (h : poolInv st) :
    poolInv (removeConn st id) := by
  unfold poolInv removeConn at *
  by_cases hm : id ∈ st.connections
  · have hpos : 0 < st.connections.card := Finset.card_pos.2 ⟨id, hm⟩
    simp only [hm, if_true]
    rw [Finset.card_erase_of_mem hm]
    omega
  · simp [hm, h]

theorem sweep_inv (ids : List String) : ∀ st : PoolSt, poolInv st →
    poolInv (ids.foldl removeConn st) := by
  induction ids with
  | nil => intro st h; exact h
  | cons id rest ih =>
    intro st h
    exact ih (removeConn st id) (removeConn_inv st id h)

/-- C2: for every identity's pool, the invariant `activeCount == number of
entries in the connections map` is preserved by any sequence of
getConnection / createConnection / releaseConnection / removeConnection /
cleanup operations (registration and increment happen together on open,
deletion and decrement together on removal, and all other operations touch
neither). -/
theorem c2_pool_invariant (ops : List PoolOp) : ∀ st : PoolSt,
    poolInv st → freshRun st ops = true → poolInv (applyPoolOps st ops) := by
  induction ops with
  | nil => intro st h _; exact h
  | cons op rest ih =>
    intro st h hf
    simp only [freshRun, Bool.and_eq_true] at hf
    obtain ⟨hop, hrest⟩ := hf
    refine ih (poolOpStep st op) ?_ hrest
    cases op with
    | register id =>
      have hfresh : id ∉ st.connections := by simpa using hop
      unfold poolInv poolOpStep at *
      rw [Finset.card_insert_of_not_mem hfresh]
      push_cast
      omega
    | remove id => exact removeConn_inv st id h
    | release id => exact h
    | acquireHit id => exact h
    | enqueue => exact h
    | dequeueTimeout => exact h
    | sweep ids => exact sweep_inv ids st h

/-- C2 witness: the invariant holds after a concrete mixed operation
sequence starting from the empty pool. -/
theorem c2_pool_invariant_witness :
    poolInv ⟨∅, 0, 0⟩
    ∧ freshRun ⟨∅, 0, 0⟩
        [.register "a", .register "b", .release "a", .enqueue,
         .sweep ["a", "x"], .remove "b", .dequeueTimeout] = true
    ∧ poolInv (applyPoolOps ⟨∅, 0, 0⟩
        [.register "a", .register "b", .release "a", .enqueue,
         .sweep ["a", "x"], .remove "b", .dequeueTimeout]) :=
  ⟨by decide, by decide,
   c2_pool_invariant
     [.register "a", .register "b", .release "a", .enqueue,
      .sweep ["a", "x"], .remove "b", .dequeueTimeout]
     ⟨∅, 0, 0⟩ (by decide) (by decide)⟩

/-- WebSocket transport states (the `ws` readyState constants). -/
inductive ReadyState where
  | connecting
  | rsOpen
  | closing
  | closed
deriving DecidableEq, Repr

/-- Per-connection fields that `releaseConnection` reads and writes:
`isInUse` (busy flag), `lastUsed`, `requestCount` (requests served), and the
transport `readyState`. -/
structure Conn where
  isInUse : Bool
  lastUsed : Nat
  requestCount : Nat
  readyState : ReadyState
deriving DecidableEq, Repr

/-- `releaseConnection(ws)`: only when the transport is OPEN, clear the busy
flag, refresh `lastUsed`, increment `requestCount`; then, if the identity's
wait queue is non-empty, shift its head, mark the connection busy again, and
resolve that waiter with this connection.  Returns the updated connection,
the remaining queue, and the waiter served (if any).  A connection whose
transport is not OPEN is left completely untouched. -/
def releaseConnection (now : Nat) (ws : Conn) (queue : List String) :
    Conn × List String × Option String :=
  if ws.readyState = ReadyState.rsOpen then
    let ws1 := { ws with isInUse := false, lastUsed := now, requestCount := ws.requestCount + 1 }
    match queue with
    | [] => (ws1, [], none)
    | w :: rest => ({ ws1 with isInUse := true }, rest, some w)
  else (ws, queue, none)

/-- `getConnection`'s queue path pushes the waiter at the tail of the
identity's wait queue (`userPool.queue.push`). -/
def enqueueWaiter (queue : List String) (w : String) : List String :=
  queue ++ [w]

/-- Successive releases of a list of connections against one wait queue,
collecting the waiters served in order. -/
def releaseMany (now : Nat) : List Conn → List String → List String
  | [], _ => []
  | c :: cs, q =>
    let r := releaseConnection now c q
    r.2.2.toList ++ releaseMany now cs r.2.1

theorem releaseMany_fifo (now : Nat) (cs : List Conn) : ∀ (q : List String),
    (∀ x ∈ cs, x.readyState = ReadyState.rsOpen) →
    releaseMany now cs q = q.take cs.length := by
  induction cs with
  | nil => intro q _; simp [releaseMany]
  | cons c cs ih =>
    intro q hall
    have hc : c.readyState = ReadyState.rsOpen := hall c (List.mem_cons_self c cs)
    have hrest : ∀ x ∈ cs, x.readyState = ReadyState.rsOpen :=
      fun x hx => hall x (List.mem_cons_of_mem c hx)
    cases q with
    | nil =>
      simp [releaseMany, releaseConnection, hc, ih [] hrest]
    | cons w rest =>
      simp [releaseMany, releaseConnection, hc, ih rest hrest, List.take_succ_cons]

/-- C6 counterexample: releasing a connection whose transport is not open
changes nothing — the busy flag stays true and `requestsServed` is not
incremented, contrary to the claim's unconditional "busy is set to false and
requestsServed is incremented" for every release. -/
theorem c6_counterexample :
    ¬ ((releaseConnection 1000 ⟨true, 0, 5, ReadyState.closed⟩ ["w1"]).1.isInUse = false
       ∧ (releaseConnection 1000 ⟨true, 0, 5, ReadyState.closed⟩ ["w1"]).1.requestCount = 6) := by
  decide

/-- C6 amended: for every release of a connection whose transport is open,
`requestsServed` is incremented; with an empty wait queue the busy flag ends
false and nobody is served; with a non-empty queue the head waiter (earliest
enqueued) is removed, the connection is marked busy again, and that waiter
is resolved with this connection — and, iterating, a sequence of releases of
open connections serves the first `k` queued waiters in exact queue order
(FIFO, with `enqueueWaiter` appending at the tail). -/
theorem c6_release_fifo (now : Nat) (c : Conn) (q : List String)
    (hopen : c.readyState = ReadyState.rsOpen) :
    ((releaseConnection now c q).1.requestCount = c.requestCount + 1)
    ∧ (q = [] → (releaseConnection now c q).1.isInUse = false
        ∧ (releaseConnection now c q).2.2 = none)
    ∧ (∀ w rest, q = w :: rest →
        (releaseConnection now c q).1.isInUse = true
        ∧ (releaseConnection now c q).2.2 = some w
        ∧ (releaseConnection now c q).2.1 = rest)
    ∧ (∀ (cs : List Conn) (q' : List String),
        (∀ x ∈ cs, x.readyState = ReadyState.rsOpen) →
        releaseMany now cs q' = q'.take cs.length)
    ∧ (∀ (q' : List String) (w : String), enqueueWaiter q' w = q' ++ [w]) := by
  refine ⟨?_, ?_, ?_, fun cs q' h => releaseMany_fifo now cs q' h, fun _ _ => rfl⟩
  · cases q <;> simp [releaseConnection, hopen]
  · rintro rfl
    simp [releaseConnection, hopen]
  · rintro w rest rfl
    simp [releaseConnection, hopen]

/-- C6 witness: the amended theorem applied to a concrete open connection
and a two-waiter queue. -/
theorem c6_release_fifo_witness :
    (⟨true, 0, 3, ReadyState.rsOpen⟩ : Conn).readyState = ReadyState.rsOpen
    ∧ ((releaseConnection 7 ⟨true, 0, 3, ReadyState.rsOpen⟩ ["w1", "w2"]).1.requestCount
          = (⟨true, 0, 3, ReadyState.rsOpen⟩ : Conn).requestCount + 1
      ∧ (releaseConnection 7 ⟨true, 0, 3, ReadyState.rsOpen⟩ ["w1", "w2"]).2.2 = some "w1"
      ∧ (releaseConnection 7 ⟨true, 0, 3, ReadyState.rsOpen⟩ ["w1", "w2"]).2.1 = ["w2"]) := by
  have h := c6_release_fifo 7 ⟨true, 0, 3, ReadyState.rsOpen⟩ ["w1", "w2"] rfl
  have h3 := h.2.2.1 "w1" ["w2"] rfl
  exact ⟨rfl, h.1, h3.2.1, h3.2.2⟩

/-- Outcome of one control-plane HTTP attempt: either axios rejects
(transport error / timeout), or it resolves with a body carrying the
`success` flag, a payload identifier, and a `message` field. -/
inductive Outcome where
  | transportError (msg : String)
  | httpOk (success : Bool) (value : String) (msg : String)
deriving DecidableEq, Repr

/-- One loop iteration's try-block: a resolved response with
`response.data.success` returns the allocated identifier; otherwise the code
throws `new Error(response.data.message)`, landing in the same catch as a
transport error. -/
def attemptOnce : Outcome → Except String String
  | .transportError m => .error m
  | .httpOk true v _ => .ok v
  | .httpOk false _ m => .error m

/-- Whether an attempt outcome lands in the catch block. -/
def isFail (o : Outcome) : Bool :=
  match attemptOnce o with
  | .error _ => true
  | .ok _ => false

/-- The error message propagated from a failing attempt. -/
def errMsg (o : Outcome) : String :=
  match attemptOnce o with
  | .error m => m
  | .ok _ => ""

/-- The identifier returned by a succeeding attempt. -/
def okVal (o : Outcome) : String :=
  match attemptOnce o with
  | .ok v => v
  | .error _ => ""

/-- The axios request options shared by both control-plane calls:
`{ headers, timeout: 30000 }`. -/
structure AxiosConfig where
  timeoutMs : Nat
deriving DecidableEq, Repr

/-- The axios options literal of `getChatID` and `sentRequest`. -/
def controlPlaneAxiosConfig : AxiosConfig := ⟨30000⟩

/-- The retry loop `for (attempt = 1; attempt <= maxRetries; attempt++)`:
on success return immediately; on failure rethrow if this was the last
attempt, else sleep `2 ^ attempt` seconds and continue.  Returns the result,
the list of waits (in seconds) actually slept, and the number of attempts
made. -/
def retryGo (maxRetries : Nat) : Nat → List Outcome → Except String String × List Nat × Nat
  | _, [] => (.error "", [], 0)
  | attempt, o :: rest =>
    match attemptOnce o with
    | .ok v => (.ok v, [], 1)
    | .error m =>
      if maxRetries ≤ attempt then (.error m, [], 1)
      else
        let r := retryGo maxRetries (attempt + 1) rest
        (r.1, 2 ^ attempt :: r.2.1, r.2.2 + 1)

/-- `getChatID`'s retry loop (`maxRetries = 3`, first attempt numbered 1). -/
def getChatIDRetry (os : List Outcome) : Except String String × List Nat × Nat :=
  retryGo 3 1 os

/-- `sentRequest`'s retry loop — identical skeleton and constants. -/
def sentRequestRetry (os : List Outcome) : Except String String × List Nat × Nat :=
  retryGo 3 1 os

theorem retryGo_attempts_le (os : List Outcome) : ∀ a : Nat,
    (retryGo 3 a os).2.2 ≤ max (4 - a) 1 := by
  induction os with
  | nil => intro a; simp [retryGo]
  | cons o rest ih =>
    intro a
    unfold retryGo
    cases attemptOnce o with
    | ok v => simp
    | error m =>
      simp only
      by_cases ha : 3 ≤ a
      · simp [ha]
      · have := ih (a + 1)
        simp [ha]
        omega

/-- C7: each control-plane call (`getChatID` and `sentRequest`) makes at
most 3 attempts; after a failed attempt `k < 3` it sleeps `2 ^ k` seconds;
every attempt carries a 30-second axios timeout; an HTTP-success response
whose body lacks the success flag throws and is retried exactly like a
transport error; and after the third failed attempt the last error is
rethrown to the caller. -/
theorem c7_control_plane_retry (o1 o2 o3 : Outcome) (rest : List Outcome)
    (v m : String) :
    (∀ os : List Outcome, (getChatIDRetry os).2.2 ≤ 3)
    ∧ (∀ os : List Outcome, sentRequestRetry os = getChatIDRetry os)
    ∧ attemptOnce (Outcome.httpOk false v m) = attemptOnce (Outcome.transportError m)
    ∧ controlPlaneAxiosConfig.timeoutMs = 30000
    ∧ (isFail o1 = false →
        getChatIDRetry (o1 :: o2 :: o3 :: rest) = (.ok (okVal o1), [], 1))
    ∧ (isFail o1 = true → isFail o2 = false →
        getChatIDRetry (o1 :: o2 :: o3 :: rest) = (.ok (okVal o2), [2], 2))
    ∧ (isFail o1 = true → isFail o2 = true → isFail o3 = false →
        getChatIDRetry (o1 :: o2 :: o3 :: rest) = (.ok (okVal o3), [2, 4], 3))
    ∧ (isFail o1 = true → isFail o2 = true → isFail o3 = true →
        getChatIDRetry (o1 :: o2 :: o3 :: rest) = (.error (errMsg o3), [2, 4], 3)) := by
  refine ⟨?_, fun _ => rfl, rfl, rfl, ?_, ?_, ?_, ?_⟩
  · intro os
    have := retryGo_attempts_le os 1
    simpa [getChatIDRetry] using this
  all_goals
    intro h1
    first
      | (intro h2 h3
         cases e1 : attemptOnce o1 <;> cases e2 : attemptOnce o2 <;>
           cases e3 : attemptOnce o3 <;>
           simp [isFail, e1, e2, e3] at h1 h2 h3 ⊢ <;>
           simp [getChatIDRetry, retryGo, errMsg, okVal, e1, e2, e3])
      | (intro h2
         cases e1 : attemptOnce o1 <;> cases e2 : attemptOnce o2 <;>
           simp [isFail, e1, e2] at h1 h2 ⊢ <;>
           simp [getChatIDRetry, retryGo, errMsg, okVal, e1, e2])
      | (cases e1 : attemptOnce o1 <;>
           simp [isFail, e1] at h1 ⊢ <;>
           simp [getChatIDRetry, retryGo, errMsg, okVal, e1])

/-- C7 witness: a run whose three attempts all fail (the second as an
HTTP-success body without the success flag) makes exactly 3 attempts, sleeps
2 then 4 seconds, and propagates the last error. -/
theorem c7_control_plane_retry_witness :
    isFail (Outcome.transportError "e1") = true
    ∧ isFail (Outcome.httpOk false "x" "e2") = true
    ∧ isFail (Outcome.transportError "e3") = true
    ∧ getChatIDRetry
        [Outcome.transportError "e1", Outcome.httpOk false "x" "e2",
         Outcome.transportError "e3"]
        = (.error (errMsg (Outcome.transportError "e3")), [2, 4], 3) := by
  have h := c7_control_plane_retry (Outcome.transportError "e1")
    (Outcome.httpOk false "x" "e2") (Outcome.transportError "e3") [] "" ""
  exact ⟨by decide, by decide, by decide,
    h.2.2.2.2.2.2.2 (by decide) (by decide) (by decide)⟩

/-- The caller-supplied body fields `processParameters` inspects
(`temperature`, `top_p`, `max_tokens` — absent fields are `none`); every
other field of the spread copy `{ ...body }` is kept opaque in `rest` and
never touched. -/
structure ParamsBody where
  temperature : Option ℚ
  top_p : Option ℚ
  max_tokens : Option ℚ
  rest : List (String × String)
deriving DecidableEq, Repr

/-- JavaScript `Math.round` for the non-negative values arising here:
round half away from zero, i.e. `⌊q + 1/2⌋`. -/
def jsRound (q : ℚ) : ℤ := ⌊q + 1 / 2⌋

/-- `Math.round((r * 0.1 + 0.8) * 100) / 100` where `r` is the
`Math.random()` draw. -/
def randTwoDecimals (r : ℚ) : ℚ :=
  (jsRound ((r * (1 / 10) + 8 / 10) * 100) : ℚ) / 100

/-- The `temperature` / `top_p` rule: `!v || v <= 0 || v > 1` (absence,
zero — which is falsy — non-positive, or above 1) triggers the random
substitute; otherwise the value is kept. -/
def normSampling (r : ℚ) : Option ℚ → ℚ
  | none => randTwoDecimals r
  | some t => if t ≤ 0 ∨ 1 < t then randTwoDecimals r else t

/-- The `max_tokens` rule: `!v || v < 8192 || v > 16384` (absence, zero, or
out of `[8192, 16384]`) substitutes 16384; otherwise the value is kept. -/
def normMaxTokens : Option ℚ → ℚ
  | none => 16384
  | some v => if v < 8192 ∨ 16384 < v then 16384 else v

/-- `processParameters(body)`: spread-copy the body and overwrite the three
sampling fields per the rules above; `r1` and `r2` are the two
`Math.random()` draws. -/
def processParameters (r1 r2 : ℚ) (b : ParamsBody) : ParamsBody :=
  { b with temperature := some (normSampling r1 b.temperature),
           top_p := some (normSampling r2 b.top_p),
           max_tokens := some (normMaxTokens b.max_tokens) }

theorem randTwoDecimals_bounds (r : ℚ) (h0 : 0 ≤ r) (h1 : r < 1) :
    4 / 5 ≤ randTwoDecimals r ∧ randTwoDecimals r ≤ 9 / 10
    ∧ ∃ z : ℤ, randTwoDecimals r = (z : ℚ) / 100 := by
  have hx1 : (80 : ℚ) ≤ (r * (1 / 10) + 8 / 10) * 100 := by nlinarith
  have hx2 : (r * (1 / 10) + 8 / 10) * 100 < 90 := by nlinarith
  have hz1 : (80 : ℤ) ≤ jsRound ((r * (1 / 10) + 8 / 10) * 100) := by
    apply Int.le_floor.2
    push_cast
    linarith
  have hz2 : jsRound ((r * (1 / 10) + 8 / 10) * 100) ≤ 90 := by
    have : jsRound ((r * (1 / 10) + 8 / 10) * 100) < 91 := by
      apply Int.floor_lt.2
      push_cast
      linarith
    omega
  have hc1 : (80 : ℚ) ≤ (jsRound ((r * (1 / 10) + 8 / 10) * 100) : ℚ) := by
    exact_mod_cast hz1
  have hc2 : ((jsRound ((r * (1 / 10) + 8 / 10) * 100)) : ℚ) ≤ 90 := by
    exact_mod_cast hz2
  refine ⟨?_, ?_, ⟨jsRound ((r * (1 / 10) + 8 / 10) * 100), rfl⟩⟩ <;>
    (unfold randTwoDecimals; linarith)

/-- C8: `processParameters` always returns `temperature` and `top_p` in
`(0, 1]` — kept unchanged when already there, otherwise replaced by the
two-decimal random draw, which lands in `[0.80, 0.90]` — and `max_tokens`
in `[8192, 16384]` — kept when already there, otherwise 16384 — while every
other field of the body is unchanged. -/
theorem c8_process_parameters (r1 r2 : ℚ) (b : ParamsBody)
    (hr1 : 0 ≤ r1) (hr1' : r1 < 1) (hr2 : 0 ≤ r2) (hr2' : r2 < 1) :
    (∃ t, (processParameters r1 r2 b).temperature = some t ∧ 0 < t ∧ t ≤ 1)
    ∧ (∃ t, (processParameters r1 r2 b).top_p = some t ∧ 0 < t ∧ t ≤ 1)
    ∧ (∀ t, b.temperature = some t → 0 < t → t ≤ 1 →
        (processParameters r1 r2 b).temperature = some t)
    ∧ (∀ t, b.top_p = some t → 0 < t → t ≤ 1 →
        (processParameters r1 r2 b).top_p = some t)
    ∧ ((b.temperature = none ∨ ∃ t, b.temperature = some t ∧ (t ≤ 0 ∨ 1 < t)) →
        (processParameters r1 r2 b).temperature = some (randTwoDecimals r1)
        ∧ 4 / 5 ≤ randTwoDecimals r1 ∧ randTwoDecimals r1 ≤ 9 / 10
        ∧ ∃ z : ℤ, randTwoDecimals r1 = (z : ℚ) / 100)
    ∧ ((b.top_p = none ∨ ∃ t, b.top_p = some t ∧ (t ≤ 0 ∨ 1 < t)) →
        (processParameters r1 r2 b).top_p = some (randTwoDecimals r2)
        ∧ 4 / 5 ≤ randTwoDecimals r2 ∧ randTwoDecimals r2 ≤ 9 / 10
        ∧ ∃ z : ℤ, randTwoDecimals r2 = (z : ℚ) / 100)
    ∧ (∃ mt, (processParameters r1 r2 b).max_tokens = some mt
        ∧ 8192 ≤ mt ∧ mt ≤ 16384)
    ∧ (∀ mt, b.max_tokens = some mt → 8192 ≤ mt → mt ≤ 16384 →
        (processParameters r1 r2 b).max_tokens = some mt)
    ∧ ((b.max_tokens = none ∨ ∃ mt, b.max_tokens = some mt ∧ (mt < 8192 ∨ 16384 < mt)) →
        (processParameters r1 r2 b).max_tokens = some (16384 : ℚ))
    ∧ (processParameters r1 r2 b).rest = b.rest := by
  have hb1 := randTwoDecimals_bounds r1 hr1 hr1'
  have hb2 := randTwoDecimals_bounds r2 hr2 hr2'
  have hin1 : 0 < randTwoDecimals r1 ∧ randTwoDecimals r1 ≤ 1 :=
    ⟨by linarith [hb1.1], by linarith [hb1.2.1]⟩
  have hin2 : 0 < randTwoDecimals r2 ∧ randTwoDecimals r2 ≤ 1 :=
    ⟨by linarith [hb2.1], by linarith [hb2.2.1]⟩
  refine ⟨?_, ?_, ?_, ?_, ?_, ?_, ?_, ?_, ?_, rfl⟩
  · cases hv : b.temperature with
    | none => exact ⟨randTwoDecimals r1, by simp [processParameters, normSampling, hv], hin1.1, hin1.2⟩
    | some t =>
      by_cases ht : t ≤ 0 ∨ 1 < t
      · exact ⟨randTwoDecimals r1, by simp [processParameters, normSampling, hv, ht], hin1.1, hin1.2⟩
      · push_neg at ht
        exact ⟨t, by simp [processParameters, normSampling, hv, not_or.2 ⟨not_le.2 ht.1, not_lt.2 ht.2⟩], ht.1, ht.2⟩
  · cases hv : b.top_p with
    | none => exact ⟨randTwoDecimals r2, by simp [processParameters, normSampling, hv], hin2.1, hin2.2⟩
    | some t =>
      by_cases ht : t ≤ 0 ∨ 1 < t
      · exact ⟨randTwoDecimals r2, by simp [processParameters, normSampling, hv, ht], hin2.1, hin2.2⟩
      · push_neg at ht
        exact ⟨t, by simp [processParameters, normSampling, hv, not_or.2 ⟨not_le.2 ht.1, not_lt.2 ht.2⟩], ht.1, ht.2⟩
  · intro t hv h0 h1
    simp [processParameters, normSampling, hv, not_or.2 ⟨not_le.2 h0, not_lt.2 h1⟩]
  · intro t hv h0 h1
    simp [processParameters, normSampling, hv, not_or.2 ⟨not_le.2 h0, not_lt.2 h1⟩]
  · rintro (hv | ⟨t, hv, ht⟩)
    · exact ⟨by simp [processParameters, normSampling, hv], hb1.1, hb1.2.1, hb1.2.2⟩
    · exact ⟨by simp [processParameters, normSampling, hv, ht], hb1.1, hb1.2.1, hb1.2.2⟩
  · rintro (hv | ⟨t, hv, ht⟩)
    · exact ⟨by simp [processParameters, normSampling, hv], hb2.1, hb2.2.1, hb2.2.2⟩
    · exact ⟨by simp [processParameters, normSampling, hv, ht], hb2.1, hb2.2.1, hb2.2.2⟩
  · cases hv : b.max_tokens with
    | none =>
      exact ⟨16384, by simp [processParameters, normMaxTokens, hv], by norm_num, by norm_num⟩
    | some v =>
      by_cases hm : v < 8192 ∨ 16384 < v
      · exact ⟨16384, by simp [processParameters, normMaxTokens, hv, hm], by norm_num, by norm_num⟩
      · push_neg at hm
        exact ⟨v, by simp [processParameters, normMaxTokens, hv, not_or.2 ⟨not_lt.2 hm.1, not_lt.2 hm.2⟩], hm.1, hm.2⟩
  · intro mt hv h0 h1
    simp [processParameters, normMaxTokens, hv, not_or.2 ⟨not_lt.2 h0, not_lt.2 h1⟩]
  · rintro (hv | ⟨mt, hv, hm⟩)
    · simp [processParameters, normMaxTokens, hv]
    · simp [processParameters, normMaxTokens, hv, hm]

/-- C8 witness: the theorem applied with both random draws 1/2 and a body
with all three fields absent. -/
theorem c8_process_parameters_witness :
    (0 : ℚ) ≤ 1 / 2 ∧ (1 / 2 : ℚ) < 1
    ∧ (∃ t, (processParameters (1 / 2) (1 / 2) ⟨none, none, none, []⟩).temperature
          = some t ∧ 0 < t ∧ t ≤ 1) := by
  have h := c8_process_parameters (1 / 2) (1 / 2) ⟨none, none, none, []⟩
    (by norm_num) (by norm_num) (by norm_num) (by norm_num)
  exact ⟨by norm_num, by norm_num, h.1⟩

/-- The shape of `error.response.data` as `handleError` inspects it: a body
with an `error` object (whose `message`/`type`/`code` may each be absent,
`raw` standing for the `error` value itself used as the message fallback), a
plain string body, or any other JSON body (stringified). -/
inductive ErrDataV where
  | errObj (message : Option String) (raw : String) (type_ : Option String) (code : Option String)
  | plainStr (s : String)
  | otherJson (s : String)
deriving DecidableEq, Repr

/-- The error value passed to `handleError`: the upstream HTTP status (if an
HTTP response exists), its body, and the JavaScript error's own message. -/
structure UpErr where
  responseStatus : Option Nat
  responseData : Option ErrDataV
  message : Option String
deriving DecidableEq, Repr

/-- The in-band streaming error frame literal
`data: {"error": {"message": context, "type": "stream_error"}}` — only two
keys. -/
def streamErrEnvelope (context : String) : ErrEnvelope :=
  [("message", .str context), ("type", .str "stream_error")]

/-- The JSON-path error envelope
`{error: {message, type, param: null, code}}` — always four keys. -/
def jsonErrEnvelope (message type_ code : String) : ErrEnvelope :=
  [("message", .str message), ("type", .str type_),
   ("param", .nullv), ("code", .str code)]

/-- `statusCode = error.response?.status || 500`. -/
def statusOf (e : UpErr) : Nat := e.responseStatus.getD 500

/-- The base `(errorMessage, errorType, errorCode)` triple derived from
`error.response?.data` (or from `error.message` with the defaults
`server_error`). -/
def baseTriple (e : UpErr) (context : String) : String × String × String :=
  match e.responseData with
  | some (.errObj m raw _t _c) =>
    (m.getD raw, (_t).getD "upstream_error", (_c).getD "upstream_error")
  | some (.plainStr s) => (s, "upstream_error", "upstream_error")
  | some (.otherJson s) => (s, "upstream_error", "upstream_error")
  | none => (e.message.getD context, "server_error", "server_error")

/-- The status-code overrides of `errorType`/`errorCode`
(401/403/429/503). -/
def adjustTypeCode (statusCode : Nat) (tc : String × String) : String × String :=
  if statusCode = 401 then ("authentication_error", "invalid_api_key")
  else if statusCode = 403 then ("permission_error", "forbidden")
  else if statusCode = 429 then ("rate_limit_error", "rate_limit_exceeded")
  else if statusCode = 503 then ("service_unavailable", "service_unavailable")
  else tc

/-- The status code and envelope `handleError` sends on the JSON path
(`res.status(statusCode).json({error: {...}})`). -/
def handleErrorJson (e : UpErr) (context : String) : Nat × ErrEnvelope :=
  (statusOf e,
   jsonErrEnvelope (baseTriple e context).1
     (adjustTypeCode (statusOf e) ((baseTriple e context).2.1, (baseTriple e context).2.2)).1
     (adjustTypeCode (statusOf e) ((baseTriple e context).2.1, (baseTriple e context).2.2)).2)

/-- `handleError(res, error, context)`: once headers are sent (streaming),
write the two-key in-band error frame, the done sentinel, and end the
stream; before any byte, send the four-key JSON envelope with the derived
status code. -/
def handleError (headersSent : Bool) (e : UpErr) (context : String) : List Emission :=
  if headersSent then
    [.errorEvent (streamErrEnvelope context), .done, .endStream]
  else
    [.statusJson (handleErrorJson e context).1 (handleErrorJson e context).2]

/-- C9 counterexample: on the after-first-byte path, `handleError` emits an
in-band error frame whose envelope carries only `message` and `type` — the
`param` and `code` fields of the claimed four-field envelope are absent. -/
theorem c9_counterexample :
    handleError true ⟨none, none, none⟩ "ctx"
        = [.errorEvent (streamErrEnvelope "ctx"), .done, .endStream]
    ∧ ¬ ("param" ∈ (streamErrEnvelope "ctx").map Prod.fst
         ∧ "code" ∈ (streamErrEnvelope "ctx").map Prod.fst) := by
  exact ⟨rfl, by decide⟩

/-- C9 amended: every before-first-byte error is a JSON envelope with
exactly the four fields message, type, param, code (param null), while
every after-first-byte error is an in-band stream event whose envelope has
only the two fields message and type, followed by the done sentinel. -/
theorem c9_error_envelopes (e : UpErr) (context : String) :
    ((handleErrorJson e context).2.map Prod.fst = ["message", "type", "param", "code"])
    ∧ ((handleErrorJson e context).2.lookup "param" = some JVal.nullv)
    ∧ ((streamErrEnvelope context).map Prod.fst = ["message", "type"])
    ∧ handleError false e context
        = [.statusJson (handleErrorJson e context).1 (handleErrorJson e context).2]
    ∧ handleError true e context
        = [.errorEvent (streamErrEnvelope context), .done, .endStream] := by
  refine ⟨rfl, ?_, rfl, rfl, rfl⟩
  simp [handleErrorJson, jsonErrEnvelope, List.lookup]

/-- The provider-parameter values occurring in `model-map.js`. -/
inductive PVal where
  | num (q : ℚ)
  | str (s : String)
  | nullv
  | thinkingCfg (type_ : String) (budget : ℚ)
  | respFormatText
deriving DecidableEq, Repr

/-- One entry of the model table: provider, upstream model name, and the
parameter schema. -/
structure ModelData where
  provider : String
  name : String
  parameters : List (String × PVal)
deriving DecidableEq, Repr

/-- The `claude-3-7-sonnet-20250219` entry — the fallback schema. -/
def claude37SonnetData : ModelData :=
  ⟨"anthropic", "claude-3-7-sonnet-latest",
   [("max_tokens", .num 64000), ("temperature", .num 1),
    ("top_k", .num 0), ("top_p", .num 0)]⟩

/-- The full static model table of `model-map.js`. -/
def modelMap : List (String × ModelData) :=
  [("claude-3-7-sonnet-20250219", claude37SonnetData),
   ("claude-3-7-sonnet-20250219-thinking",
    ⟨"anthropic", "claude-3-7-sonnet-latest",
     [("max_tokens", .num 64000), ("thinking", .thinkingCfg "enabled" 32000)]⟩),
   ("claude-sonnet-4-20250514",
    ⟨"anthropic", "claude-sonnet-4-20250514",
     [("max_tokens", .num 64000), ("temperature", .num 1),
      ("top_k", .num 0), ("top_p", .num 0)]⟩),
   ("claude-sonnet-4-20250514-thinking",
    ⟨"anthropic", "claude-sonnet-4-20250514",
     [("max_tokens", .num 64000), ("thinking", .thinkingCfg "enabled" 32000)]⟩),
   ("claude-opus-4-20250514",
    ⟨"anthropic", "claude-opus-4-20250514",
     [("max_tokens", .num 32000), ("temperature", .num 1),
      ("top_k", .num 0), ("top_p", .num 0)]⟩),
   ("claude-opus-4-20250514-thinking",
    ⟨"anthropic", "claude-opus-4-20250514",
     [("max_tokens", .num 32000), ("thinking", .thinkingCfg "enabled" 16000)]⟩),
   ("o4-mini",
    ⟨"openai", "o4-mini",
     [("response_format", .respFormatText), ("reasoning_effort", .str "high"),
      ("max_completion_tokens", .num 100000)]⟩),
   ("chatgpt-4o-latest",
    ⟨"openai", "chatgpt-4o-latest",
     [("temperature", .num 1), ("seed", .num 0), ("response_format", .nullv),
      ("top_p", .num 1), ("frequency_penalty", .num 0),
      ("presence_penalty", .num 0)]⟩),
   ("gpt-4.1",
    ⟨"openai", "gpt-4.1",
     [("temperature", .num 1), ("seed", .num 0), ("response_format", .nullv),
      ("top_p", .num 1)]⟩),
   ("gpt-4.5-preview",
    ⟨"openai", "gpt-4.5-preview",
     [("temperature", .num 1), ("seed", .num 0), ("response_format", .nullv),
      ("top_p", .num 1), ("frequency_penalty", .num 0),
      ("presence_penalty", .num 0)]⟩)]

/-- `modelMap[req.body.model] ? modelMap[req.body.model] :
modelMap["claude-3-7-sonnet-20250219"]` — the schema used for the upstream
payload. -/
def modelDataFor (m : String) : ModelData :=
  match modelMap.lookup m with
  | some d => d
  | none => claude37SonnetData

/-- The schema `getChatID` spreads into
`prompt_blueprint.metadata.model`. -/
def getChatIDModelData (reqModel : String) : ModelData := modelDataFor reqModel

/-- The schema `sentRequest` spreads into
`shared_prompt_blueprint.metadata.model`. -/
def sentRequestModelData (reqModel : String) : ModelData := modelDataFor reqModel

/-- C10: a request whose model name is not a key of the model table is not
rejected — both `getChatID` and `sentRequest` silently build the upstream
payload from the `claude-3-7-sonnet-20250219` schema — while the response
objects (non-streaming body and stream chunks) still echo the
caller-supplied model name. -/
theorem c10_model_fallback (m : String) (h : modelMap.lookup m = none) :
    getChatIDModelData m = claude37SonnetData
    ∧ sentRequestModelData m = claude37SonnetData
    ∧ (∀ st : DirectReqState, st.trans.textLast.isEmpty = false →
        (directStep false m st .complete).2
          = [Emission.jsonBody ⟨m, nonStreamOutput st.trans⟩])
    ∧ (∀ (st : DirectReqState) (segs : List Seg),
        (directStep true m st (.update segs)).2
          = [Emission.chunk m (processUpdate st.trans segs).2]) := by
  refine ⟨?_, ?_, ?_, ?_⟩
  · simp [getChatIDModelData, modelDataFor, h]
  · simp [sentRequestModelData, modelDataFor, h]
  · intro st hx
    simp [directStep, hx]
  · intro st segs
    simp [directStep]

/-- C10 witness: the theorem applied to the unknown model name "gpt-5". -/
theorem c10_model_fallback_witness :
    modelMap.lookup "gpt-5" = none
    ∧ getChatIDModelData "gpt-5" = claude37SonnetData
    ∧ sentRequestModelData "gpt-5" = claude37SonnetData := by
  have h := c10_model_fallback "gpt-5" (by decide)
  exact ⟨by decide, h.1, h.2.1⟩
